import Mathlib

/-! Shallow embedding of the image-entropy tool (main.py and src/methods.py of
the phys400 repository). An image is a row-major list of integer pixel rows.
The structural parts (slices, gradients, histograms, probabilities) are
computable; entropy values live in the reals, with numpy's masked logarithm
policy made explicit. -/

/-- A row-major integer image with m rows and n columns. -/
def Rect (g : List (List ℤ)) (m n : ℕ) : Prop :=
  g.length = m ∧ ∀ r ∈ g, r.length = n

/-- Masked base-2 entropy contribution: `d * -np.ma.log2(d)` contributes only
where d is positive, so the term is 0 at d ≤ 0. -/
noncomputable def entTerm2 (p : ℝ) : ℝ :=
  if 0 < p then -(p * Real.logb 2 p) else 0

/-- Natural-log masked entropy contribution, for `histrng * np.ma.log(histrng)`. -/
noncomputable def entTermE (p : ℝ) : ℝ :=
  if 0 < p then -(p * Real.log p) else 0

/-- NumPy stores a float into an integer-dtype array by truncation toward zero. -/
noncomputable def truncZ (x : ℝ) : ℤ :=
  if x < 0 then Int.ceil x else Int.floor x

/-- Element access with numpy-style (i, j) indexing, defaulting out of range. -/
def get2 (g : List (List ℤ)) (i j : ℕ) : ℤ :=
  (g.getD i []).getD j 0

/-- Python slice l[lo:hi] for 0 ≤ lo ≤ hi: drop lo then take (hi - lo). -/
def pySlice {α : Type} (l : List α) (lo hi : ℕ) : List α :=
  (l.drop lo).take (hi - lo)

/-- A constant m×n image (every pixel = c). -/
def constImg (m n : ℕ) (c : ℤ) : List (List ℤ) :=
  List.replicate m (List.replicate n c)

/-! shannon2dr (methods.py lines 195-230) -/

/-- kernrad = round((kernsize - 1) / 2); exact for the odd kernel sizes the
argument parser admits. -/
def kernradOf (k : ℕ) : ℕ := (k - 1) / 2

/-- The flattened window greyimg[max(0,i-r):min(H,i+r), max(0,j-r):min(W,j+r)]
gathered by shannon2dr for cell (i, j) (methods.py lines 205-209); ℕ
subtraction saturates at 0 exactly as np.max([0, i - kernrad]) does. -/
def shannonRegion (g : List (List ℤ)) (k i j : ℕ) : List ℤ :=
  ((pySlice g (i - kernradOf k) (min g.length (i + kernradOf k))).map
    (fun row => pySlice row (j - kernradOf k)
      (min ((g.getD 0 []).length) (j + kernradOf k)))).flatten

/-- probs = [np.size(region[region == v]) / size for v in set(region)]. -/
def shannonProbs (l : List ℤ) : List ℚ :=
  l.dedup.map (fun v => (l.count v : ℚ) / l.length)

/-- entropy = np.sum([p * np.log2(1 / p) for p in probs]). -/
noncomputable def listShEntropy (l : List ℤ) : ℝ :=
  ((shannonProbs l).map (fun p : ℚ => (p : ℝ) * Real.logb 2 (1 / (p : ℝ)))).sum

/-- The per-cell entropy of shannon2dr. -/
noncomputable def shannon2drCell (g : List (List ℤ)) (k i j : ℕ) : ℝ :=
  listShEntropy (shannonRegion g k i j)

/-- entimg = duplicate(greyimg) with entimg[i, j] = entropy: a same-shape copy
whose integer dtype truncates each stored per-window entropy. -/
noncomputable def shannon2drImg (g : List (List ℤ)) (k : ℕ) : List (List ℤ) :=
  (List.range g.length).map (fun i =>
    (List.range ((g.getD i []).length)).map (fun j => truncZ (shannon2drCell g k i j)))

/-- The row-major list `entropies` accumulated by shannon2dr. -/
noncomputable def shannonEntropies (g : List (List ℤ)) (k : ℕ) : List ℝ :=
  ((List.range g.length).map (fun i =>
    (List.range ((g.getD i []).length)).map (fun j => shannon2drCell g k i j))).flatten

/-- np.average(entropies). -/
noncomputable def shannonMean (g : List (List ℤ)) (k : ℕ) : ℝ :=
  (shannonEntropies g k).sum / ((shannonEntropies g k).length : ℝ)

/-! shannon1d and scipy1d (methods.py lines 59-77) -/

/-- greyimg.sum(): the divisor normalizing the signal in shannon1d/scipy1d. -/
def pixelSum (g : List (List ℤ)) : ℤ := g.flatten.sum

/-- shannon1d: signal = greyimg / greyimg.sum(); entropy = (signal * -np.ma.log2(signal)).sum(). -/
noncomputable def shannon1dEntropy (g : List (List ℤ)) : ℝ :=
  (g.flatten.map (fun v : ℤ => entTerm2 ((v : ℝ) / (pixelSum g : ℝ)))).sum

/-- scipy1d: scipy.stats.entropy(signal, base=8) = (Σ -p·ln p) / ln 8 over the
same pixel-wise normalized signal. -/
noncomputable def scipy1dEntropy (g : List (List ℤ)) : ℝ :=
  (g.flatten.map (fun v : ℤ => entTermE ((v : ℝ) / (pixelSum g : ℝ)))).sum / Real.log 8

/-! kapur1d (methods.py lines 33-56) -/

/-- np.histogram(greyimg, bins=256, range=(0, 256))[0]: bin v counts the
pixels equal to v, for v in 0..255. -/
def kapurHist (g : List (List ℤ)) (v : ℕ) : ℕ :=
  g.flatten.countP (fun x => decide (x = (v : ℤ)))

/-- cdf = hist.astype(float).cumsum(). -/
def kapurCdf (g : List (List ℤ)) (i : ℕ) : ℕ :=
  ∑ v ∈ Finset.range (i + 1), kapurHist g v

/-- np.nonzero(hist)[0]: the ascending list of nonzero histogram bins. -/
def kapurNonzero (g : List (List ℤ)) : List ℕ :=
  (List.range 256).filter (fun v => decide (kapurHist g v ≠ 0))

/-- binrng[0], the first nonzero bin. -/
def kapurLo (g : List (List ℤ)) : ℕ := (kapurNonzero g).head?.getD 0

/-- binrng[1], the last nonzero bin. -/
def kapurHi (g : List (List ℤ)) : ℕ := (kapurNonzero g).getLast?.getD 0

/-- Low-partition term: -np.sum(histrng * np.ma.log(histrng)) over
histrng = hist[: i + 1] / cdf[i], the zero bins masked. -/
noncomputable def kapurLow (g : List (List ℤ)) (i : ℕ) : ℝ :=
  ∑ v ∈ Finset.range (i + 1), entTermE ((kapurHist g v : ℝ) / (kapurCdf g i : ℝ))

/-- hist[i + 1 :] restricted to its nonzero bins (methods.py line 44). -/
def kapurHighBins (g : List (List ℤ)) (i : ℕ) : List ℕ :=
  (List.range' (i + 1) (255 - i)).filter (fun v => decide (kapurHist g v ≠ 0))

/-- High-partition sum np.sum(histrng * np.log(histrng)) over the filtered
bins divided by (cdf[binrng[1]] - cdf[i]); it is subtracted from the entropy. -/
noncomputable def kapurHigh (g : List (List ℤ)) (i : ℕ) : ℝ :=
  ((kapurHighBins g i).map (fun v =>
    (kapurHist g v : ℝ) / ((kapurCdf g (kapurHi g) : ℝ) - (kapurCdf g i : ℝ)) *
      Real.log ((kapurHist g v : ℝ) / ((kapurCdf g (kapurHi g) : ℝ) - (kapurCdf g i : ℝ))))).sum

/-- The candidate objective at threshold i: the loop body's final `entropy`. -/
noncomputable def kapurPsi (g : List (List ℤ)) (i : ℕ) : ℝ :=
  kapurLow g i - kapurHigh g i

open Classical in
/-- One iteration of the running maximum: updated only under strict >. -/
noncomputable def kapurStep (g : List (List ℤ)) (s : ℝ × ℕ) (i : ℕ) : ℝ × ℕ :=
  if kapurPsi g i > s.1 then (kapurPsi g i, i) else s

/-- The loop for i in range(binrng[0], binrng[1] + 1) over (entropymax, threshold),
starting from (0, 0). -/
noncomputable def kapurLoop (g : List (List ℤ)) : ℝ × ℕ :=
  (List.range' (kapurLo g) (kapurHi g + 1 - kapurLo g)).foldl (kapurStep g) (0, 0)

/-- entropymax after the loop. -/
noncomputable def kapurMaxEntropy (g : List (List ℤ)) : ℝ := (kapurLoop g).1

/-- threshold after the loop. -/
noncomputable def kapurThreshold (g : List (List ℤ)) : ℕ := (kapurLoop g).2

/-- The value actually logged as "entropy": the loop variable `entropy` after
the loop, i.e. the objective of the LAST candidate binrng[1]. -/
noncomputable def kapurReported (g : List (List ℤ)) : ℝ := kapurPsi g (kapurHi g)

/-- entimg = np.where(greyimg < threshold, greyimg, 0). -/
noncomputable def kapurEntimg (g : List (List ℤ)) : List (List ℤ) :=
  g.map (List.map (fun x => if x < (kapurThreshold g : ℤ) then x else 0))

/-! delentropy2d (methods.py lines 80-142) -/

/-- fx = greyimg[:, 2:] - greyimg[:, :-2]. -/
def fxRaw (g : List (List ℤ)) : List (List ℤ) :=
  g.map (fun row => List.zipWith (· - ·) (row.drop 2) (row.take (row.length - 2)))

/-- fy = greyimg[2:, :] - greyimg[:-2, :]. -/
def fyRaw (g : List (List ℤ)) : List (List ℤ) :=
  List.zipWith (List.zipWith (· - ·)) (g.drop 2) (g.take (g.length - 2))

/-- fx = fx[1:-1, :] (drop first and last row). -/
def fxCrop (g : List (List ℤ)) : List (List ℤ) :=
  ((fxRaw g).drop 1).dropLast

/-- fy = fy[:, 1:-1] (drop first and last column). -/
def fyCrop (g : List (List ℤ)) : List (List ℤ) :=
  (fyRaw g).map (fun row => (row.drop 1).dropLast)

/-- The cropping of fx exactly as the spec sentence words it ("first/last
column of fx"), for comparison with the code's fxCrop. -/
def specFxCrop (g : List (List ℤ)) : List (List ℤ) :=
  (fxRaw g).map (fun row => (row.drop 1).dropLast)

/-- The cropping of fy exactly as the spec sentence words it ("first/last
row of fy"), for comparison with the code's fyCrop. -/
def specFyCrop (g : List (List ℤ)) : List (List ℤ) :=
  ((fyRaw g).drop 1).dropLast

/-- np.max(np.abs(t)) over a flattened integer matrix (0 on an empty one). -/
def maxAbs (t : List (List ℤ)) : ℕ :=
  (t.flatten.map Int.natAbs).foldl max 0

/-- jrng = np.max([np.max(np.abs(fx)), np.max(np.abs(fy))]). -/
def jrngOf (fx fy : List (List ℤ)) : ℕ :=
  max (maxAbs fx) (maxAbs fy)

/-- The bin an integer value falls into under np.histogram2d(bins=2J+1,
range=[-J, J]): equal-width bins with the top edge inclusive, i.e.
min (2J) ⌊(v + J)(2J + 1)/(2J)⌋. -/
def binIdx (J : ℕ) (v : ℤ) : ℕ :=
  if J = 0 then 0 else min (2 * J) (((v + J) * (2 * J + 1) / (2 * J : ℤ)).toNat)

/-- The flattened (fx, fy) sample pairs fed to np.histogram2d. -/
def gradPairs (fx fy : List (List ℤ)) : List (ℤ × ℤ) :=
  fx.flatten.zip fy.flatten

/-- hist[a][b] of np.histogram2d over the pairs, J = jrng of the pair. -/
def hist2dAt (fx fy : List (List ℤ)) (a b : ℕ) : ℕ :=
  (gradPairs fx fy).countP (fun p =>
    decide (binIdx (jrngOf fx fy) p.1 = a) && decide (binIdx (jrngOf fx fy) p.2 = b))

/-- deldensity = hist / hist.sum(); deldensity * -np.ma.log2(deldensity),
summed over all bins, then halved (methods.py lines 119-122). -/
noncomputable def delPipeline (fx fy : List (List ℤ)) : ℝ :=
  (∑ a ∈ Finset.range (2 * jrngOf fx fy + 1), ∑ b ∈ Finset.range (2 * jrngOf fx fy + 1),
    entTerm2 ((hist2dAt fx fy a b : ℝ) / ((gradPairs fx fy).length : ℝ))) / 2

/-- delentropy2d's entropy value for an image passing the assertion. -/
noncomputable def delentropyVal (g : List (List ℤ)) : ℝ :=
  delPipeline (fxCrop g) (fyCrop g)

/-- delentropy2d with its assertion gate: `assert jrng <= 255`. -/
noncomputable def delentropy2dE (g : List (List ℤ)) : Except String ℝ :=
  if 255 < jrngOf (fxCrop g) (fyCrop g) then
    Except.error "J must be in range [-255, 255]"
  else Except.ok (delentropyVal g)

/-! the CLI surface (main.py lines 244-274, methods.py lines 233-243) -/

/-- argtypemethod of main.py (lines 244-247); none is the usage error raised
as argparse.ArgumentTypeError. -/
def argtypemethod (val : String) : Option String :=
  if val ≠ "pseudo-spatial" ∧ val ≠ "2d-delentropy" ∧ val ≠ "2d-gradient" then none
  else some val

/-- argtypekernelsize of main.py (lines 250-254). -/
def argtypekernelsize (val : ℤ) : Option ℤ :=
  if val ≤ 1 ∨ val % 2 ≠ 1 then none else some val

/-- The --method default in main.py's argparse setup. -/
def mainMethodDefault : String := "2d-delentropy"

/-- The keys of the strtofunc registry (methods.py lines 233-241), in order. -/
def strtofuncKeys : List String :=
  ["1d-kapur", "1d-scipy", "1d-shannon", "2d-delentropy", "2d-gradient",
   "2d-regional-scikit", "2d-regional-shannon"]

/-- methods.default (methods.py line 243). -/
def methodsDefault : String := "2d-delentropy"

/-! concrete test images -/

/-- The 3×3 all-distinct image of the spec's §4.1 test property. -/
def img9 : List (List ℤ) := [[1, 2, 3], [4, 5, 6], [7, 8, 9]]

/-- A 2×2 image whose full window has entropy exactly 3/2. -/
def imgT : List (List ℤ) := [[0, 0], [1, 2]]

/-- A 1×10 image whose Kapur objective peaks at the first candidate. -/
def imgK : List (List ℤ) := [[0, 0, 0, 0, 0, 0, 0, 0, 1, 2]]

/-! helper lemmas -/

theorem logb_two_self : Real.logb 2 2 = 1 :=
  Real.logb_self_eq_one (by norm_num)

theorem logb_two_four : Real.logb 2 4 = 2 := by
  rw [show (4 : ℝ) = 2 ^ (2 : ℕ) by norm_num, Real.logb_pow, logb_two_self]
  norm_num

theorem logb_two_half : Real.logb 2 (1 / 2) = -1 := by
  rw [one_div, Real.logb_inv, logb_two_self]

theorem logb_two_quarter : Real.logb 2 (1 / 4) = -2 := by
  rw [one_div, Real.logb_inv, logb_two_four]

theorem truncZ_eval_zero : truncZ 0 = 0 := by
  simp [truncZ]

theorem truncZ_eval_one : truncZ 1 = 1 := by
  norm_num [truncZ]

theorem truncZ_eval_threehalves : truncZ (3 / 2) = 1 := by
  norm_num [truncZ, Int.floor_eq_iff]

theorem shannonProbs_eval_one : shannonProbs [(0 : ℤ)] = [1] := by
  unfold shannonProbs
  rw [show ([(0 : ℤ)]).dedup = [0] from by decide]
  norm_num

theorem shannonProbs_eval_two : shannonProbs [(0 : ℤ), 0] = [1] := by
  unfold shannonProbs
  rw [show ([(0 : ℤ), 0]).dedup = [0] from by decide]
  norm_num [List.count_cons, beq_iff_eq]

theorem cell_imgT_00 : shannon2drCell imgT 3 0 0 = 0 := by
  unfold shannon2drCell
  rw [show shannonRegion imgT 3 0 0 = [0] from by decide]
  unfold listShEntropy
  rw [shannonProbs_eval_one]
  norm_num

theorem cell_imgT_01 : shannon2drCell imgT 3 0 1 = 0 := by
  unfold shannon2drCell
  rw [show shannonRegion imgT 3 0 1 = [0, 0] from by decide]
  unfold listShEntropy
  rw [shannonProbs_eval_two]
  norm_num

theorem cell_imgT_10 : shannon2drCell imgT 3 1 0 = 1 := by
  unfold shannon2drCell
  rw [show shannonRegion imgT 3 1 0 = [0, 1] from by decide]
  unfold listShEntropy shannonProbs
  rw [show ([(0 : ℤ), 1]).dedup = [0, 1] from by decide]
  norm_num [List.count_cons, beq_iff_eq, logb_two_self, logb_two_half]

theorem cell_imgT_11 : shannon2drCell imgT 3 1 1 = 3 / 2 := by
  unfold shannon2drCell
  rw [show shannonRegion imgT 3 1 1 = [0, 0, 1, 2] from by decide]
  unfold listShEntropy shannonProbs
  rw [show ([(0 : ℤ), 0, 1, 2]).dedup = [0, 1, 2] from by decide]
  norm_num [List.count_cons, beq_iff_eq, logb_two_self, logb_two_four, logb_two_half, logb_two_quarter]

/-- C1 (code evaluation): on the 3×3 all-distinct image with kernel size 3,
the code's centre window is only the 2×2 block [1, 2, 4, 5] — the slice
upper bound i + kernrad is exclusive in Python — so the centre cell holds
log2 4 = 2, not the log2 9 the claim states. -/
theorem shannon2dr_center_window_eval :
    shannonRegion img9 3 1 1 = [1, 2, 4, 5] ∧
    shannon2drCell img9 3 1 1 = 2 ∧ (2 : ℝ) ≠ Real.logb 2 9 := by
  refine ⟨by decide, ?_, ?_⟩
  · unfold shannon2drCell
    rw [show shannonRegion img9 3 1 1 = [1, 2, 4, 5] from by decide]
    unfold listShEntropy shannonProbs
    rw [show ([(1 : ℤ), 2, 4, 5]).dedup = [1, 2, 4, 5] from by decide]
    norm_num [List.count_cons, beq_iff_eq, logb_two_four, logb_two_quarter]
  · have h4 : Real.logb 2 4 < Real.logb 2 9 :=
      Real.logb_lt_logb (by norm_num) (by norm_num) (by norm_num)
    rw [logb_two_four] at h4
    exact ne_of_lt h4

theorem getD_map_range {α : Type} (f : ℕ → α) (m i : ℕ) (d : α) :
    (((List.range m).map f).getD i d) = if i < m then f i else d := by
  by_cases h : i < m
  · rw [if_pos h, List.getD_eq_getElem _ _ (by simpa using h)]
    simp
  · rw [if_neg h, List.getD_eq_default]
    simpa using Nat.le_of_not_lt h

theorem shannon2drImg_shape (g : List (List ℤ)) (k : ℕ) :
    (shannon2drImg g k).length = g.length ∧
      ∀ i : ℕ, ((shannon2drImg g k).getD i []).length = (g.getD i []).length := by
  constructor
  · simp [shannon2drImg]
  · intro i
    unfold shannon2drImg
    rw [getD_map_range]
    by_cases h : i < g.length
    · rw [if_pos h]
      simp
    · rw [if_neg h, List.getD_eq_default _ _ (by simpa using Nat.le_of_not_lt h)]

theorem shannon2drImg_imgT : shannon2drImg imgT 3 = [[0, 0], [1, 1]] := by
  unfold shannon2drImg
  rw [show List.range imgT.length = [0, 1] from rfl]
  simp only [List.map_cons, List.map_nil]
  rw [show List.range ((imgT.getD 0 []).length) = [0, 1] from rfl,
      show List.range ((imgT.getD 1 []).length) = [0, 1] from rfl]
  simp only [List.map_cons, List.map_nil]
  rw [cell_imgT_00, cell_imgT_01, cell_imgT_10, cell_imgT_11,
      truncZ_eval_zero, truncZ_eval_one, truncZ_eval_threehalves]

theorem shannonEntropies_imgT : shannonEntropies imgT 3 = [0, 0, 1, 3 / 2] := by
  unfold shannonEntropies
  rw [show List.range imgT.length = [0, 1] from rfl]
  simp only [List.map_cons, List.map_nil]
  rw [show List.range ((imgT.getD 0 []).length) = [0, 1] from rfl,
      show List.range ((imgT.getD 1 []).length) = [0, 1] from rfl]
  simp only [List.map_cons, List.map_nil]
  rw [cell_imgT_00, cell_imgT_01, cell_imgT_10, cell_imgT_11]
  simp

/-- C9: the entropy map of shannon2dr is a same-shape copy of the greyscale
input, and with the input's integer dtype each stored cell holds the
per-window entropy truncated toward zero rather than the exact real value;
the exact values survive only in the `entropies` list that feeds the
mean/standard-deviation summary: on the image [[0,0],[1,2]] with kernel 3 the
(1,1) window entropy is exactly 3/2 but the stored cell is 1, while the mean
over the exact values is 5/8. -/
theorem shannon2dr_entimg_truncation :
    (∀ (g : List (List ℤ)) (k : ℕ), (shannon2drImg g k).length = g.length ∧
      ∀ i : ℕ, ((shannon2drImg g k).getD i []).length = (g.getD i []).length) ∧
    shannon2drImg imgT 3 = [[0, 0], [1, 1]] ∧
    shannon2drCell imgT 3 1 1 = 3 / 2 ∧
    get2 (shannon2drImg imgT 3) 1 1 = 1 ∧ (((1 : ℤ) : ℝ) ≠ 3 / 2) ∧
    shannonMean imgT 3 = 5 / 8 := by
  refine ⟨shannon2drImg_shape, shannon2drImg_imgT, cell_imgT_11, ?_, by norm_num, ?_⟩
  · rw [show get2 (shannon2drImg imgT 3) 1 1 = (((shannon2drImg imgT 3).getD 1 []).getD 1 0) from rfl,
      shannon2drImg_imgT]
    decide
  · unfold shannonMean
    rw [shannonEntropies_imgT]
    norm_num

theorem flatten_replicate {α : Type} (m n : ℕ) (c : α) :
    (List.replicate m (List.replicate n c)).flatten = List.replicate (m * n) c := by
  induction m with
  | zero => simp
  | succ m ih =>
    rw [List.replicate_succ, List.flatten_cons, ih, Nat.succ_mul, Nat.add_comm (m * n) n,
      List.replicate_add]

theorem dropLast_replicate {α : Type} (s : ℕ) (x : α) :
    (List.replicate s x).dropLast = List.replicate (s - 1) x := by
  rw [List.dropLast_eq_take, List.length_replicate, List.take_replicate]
  congr 1
  omega

theorem countP_replicate {α : Type} (p : α → Bool) (N : ℕ) (x : α) :
    (List.replicate N x).countP p = if p x then N else 0 := by
  induction N with
  | zero => simp
  | succ n ih => by_cases h : p x <;> simp [List.replicate_succ, List.countP_cons, ih, h]

theorem foldl_max_replicate_zero (N : ℕ) : (List.replicate N (0 : ℕ)).foldl max 0 = 0 := by
  induction N with
  | zero => rfl
  | succ n ih => simpa [List.replicate_succ] using ih

theorem shannon1d_const (m n : ℕ) (c : ℤ) (hc : 0 < c) (hmn : 0 < m * n) :
    shannon1dEntropy (constImg m n c) = Real.logb 2 ((m * n : ℕ) : ℝ) := by
  unfold shannon1dEntropy pixelSum constImg
  rw [flatten_replicate, List.sum_replicate, List.map_replicate, List.sum_replicate]
  have hc' : ((c : ℤ) : ℝ) ≠ 0 := by exact_mod_cast hc.ne'
  have h2 : ((m : ℝ) * (n : ℝ)) ≠ 0 := by
    have : (0 : ℝ) < (m : ℝ) * (n : ℝ) := by exact_mod_cast hmn
    exact this.ne'
  have hNpos : (0 : ℝ) < ((m * n : ℕ) : ℝ) := by exact_mod_cast hmn
  have harg : ((c : ℤ) : ℝ) / (((m * n) • c : ℤ) : ℝ) = ((m * n : ℕ) : ℝ)⁻¹ := by
    rw [nsmul_eq_mul]
    push_cast
    rw [inv_eq_one_div, div_eq_div_iff (mul_ne_zero h2 hc') h2]
    ring
  rw [harg]
  have hpos : (0 : ℝ) < ((m * n : ℕ) : ℝ)⁻¹ := by positivity
  rw [show entTerm2 (((m * n : ℕ) : ℝ))⁻¹ = ((m * n : ℕ) : ℝ)⁻¹ * Real.logb 2 ((m * n : ℕ) : ℝ) from ?term]
  case term =>
    unfold entTerm2
    rw [if_pos hpos, Real.logb_inv]
    ring
  rw [nsmul_eq_mul, mul_comm (((m * n : ℕ) : ℝ))⁻¹ _, mul_comm (Real.logb 2 _) _,
    ← mul_assoc, mul_inv_cancel₀ hNpos.ne', one_mul]

theorem shannonProbs_const (L : ℕ) (c : ℤ) (hL : L ≠ 0) :
    shannonProbs (List.replicate L c) = [1] := by
  unfold shannonProbs
  rw [List.replicate_dedup hL]
  simp only [List.map_cons, List.map_nil, List.count_replicate, List.length_replicate]
  rw [if_pos (by simp)]
  congr 1
  have : (L : ℚ) ≠ 0 := by exact_mod_cast hL
  field_simp

theorem listShEntropy_const (L : ℕ) (c : ℤ) (hL : L ≠ 0) :
    listShEntropy (List.replicate L c) = 0 := by
  unfold listShEntropy
  rw [shannonProbs_const L c hL]
  norm_num

theorem pySlice_replicate {α : Type} (x : α) (s lo hi : ℕ) :
    pySlice (List.replicate s x) lo hi = List.replicate (min (hi - lo) (s - lo)) x := by
  unfold pySlice
  rw [List.drop_replicate, List.take_replicate]

theorem shannonRegion_const (m n : ℕ) (c : ℤ) (k i j : ℕ) (hm : 0 < m) :
    shannonRegion (constImg m n c) k i j =
      List.replicate ((min m (i + kernradOf k) - (i - kernradOf k)) *
        (min n (j + kernradOf k) - (j - kernradOf k))) c := by
  unfold shannonRegion constImg
  rw [show (List.replicate m (List.replicate n c)).getD 0 [] = List.replicate n c from ?getd]
  case getd =>
    rw [List.getD_eq_getElem _ _ (by simpa using hm)]
    simp
  rw [List.length_replicate, List.length_replicate, pySlice_replicate, List.map_replicate,
    pySlice_replicate, flatten_replicate]
  congr 1
  have hle : n ⊓ (j + kernradOf k) - (j - kernradOf k) ≤ n - (j - kernradOf k) :=
    Nat.sub_le_sub_right (Nat.min_le_left _ _) _
  have hle' : m ⊓ (i + kernradOf k) - (i - kernradOf k) ≤ m - (i - kernradOf k) :=
    Nat.sub_le_sub_right (Nat.min_le_left _ _) _
  rw [Nat.min_eq_left hle, Nat.min_eq_left hle']

theorem shannon2drCell_const (m n : ℕ) (c : ℤ) (k i j : ℕ)
    (hk : 3 ≤ k) (hi : i < m) (hj : j < n) :
    shannon2drCell (constImg m n c) k i j = 0 := by
  unfold shannon2drCell
  rw [shannonRegion_const m n c k i j (by omega)]
  apply listShEntropy_const
  have hr : 1 ≤ kernradOf k := by
    unfold kernradOf
    omega
  have h1 : 1 ≤ min m (i + kernradOf k) - (i - kernradOf k) := by
    have : i + 1 ≤ min m (i + kernradOf k) := le_min (by omega) (by omega)
    omega
  have h2 : 1 ≤ min n (j + kernradOf k) - (j - kernradOf k) := by
    have : j + 1 ≤ min n (j + kernradOf k) := le_min (by omega) (by omega)
    omega
  exact Nat.mul_ne_zero (by omega) (by omega)

theorem fxCrop_const (m n : ℕ) (c : ℤ) :
    fxCrop (constImg m n c) = List.replicate (m - 2) (List.replicate (n - 2) 0) := by
  unfold fxCrop fxRaw constImg
  simp only [List.map_replicate, List.drop_replicate, List.length_replicate,
    List.take_replicate, List.zipWith_replicate, dropLast_replicate, sub_self]
  rw [show m - 1 - 1 = m - 2 from by omega,
    show (n - 2) ⊓ ((n - 2) ⊓ n) = n - 2 from by omega]

theorem fyCrop_const (m n : ℕ) (c : ℤ) :
    fyCrop (constImg m n c) = List.replicate (m - 2) (List.replicate (n - 2) 0) := by
  unfold fyCrop fyRaw constImg
  simp only [List.map_replicate, List.drop_replicate, List.length_replicate,
    List.take_replicate, List.zipWith_replicate, dropLast_replicate, sub_self]
  rw [show (m - 2) ⊓ ((m - 2) ⊓ m) = m - 2 from by omega,
    show n ⊓ n - 1 - 1 = n - 2 from by omega]

theorem maxAbs_zero (s t : ℕ) :
    maxAbs (List.replicate s (List.replicate t (0 : ℤ))) = 0 := by
  unfold maxAbs
  rw [flatten_replicate, List.map_replicate]
  exact foldl_max_replicate_zero (s * t)

theorem jrng_zero (s t : ℕ) :
    jrngOf (List.replicate s (List.replicate t (0 : ℤ)))
      (List.replicate s (List.replicate t (0 : ℤ))) = 0 := by
  unfold jrngOf
  rw [maxAbs_zero]
  simp

theorem gradPairs_zero (s t : ℕ) :
    gradPairs (List.replicate s (List.replicate t (0 : ℤ)))
      (List.replicate s (List.replicate t (0 : ℤ))) = List.replicate (s * t) ((0 : ℤ), (0 : ℤ)) := by
  unfold gradPairs
  rw [flatten_replicate, List.zip_replicate']

theorem hist2dAt_zero (s t : ℕ) :
    hist2dAt (List.replicate s (List.replicate t (0 : ℤ)))
      (List.replicate s (List.replicate t (0 : ℤ))) 0 0 = s * t := by
  unfold hist2dAt
  rw [jrng_zero, gradPairs_zero, countP_replicate]
  norm_num [binIdx]

theorem delPipeline_zero (s t : ℕ) (hst : s * t ≠ 0) :
    delPipeline (List.replicate s (List.replicate t (0 : ℤ)))
      (List.replicate s (List.replicate t (0 : ℤ))) = 0 := by
  unfold delPipeline
  rw [jrng_zero, gradPairs_zero, List.length_replicate]
  rw [show 2 * 0 + 1 = 1 from rfl, Finset.sum_range_one, Finset.sum_range_one]
  rw [hist2dAt_zero]
  have hN : ((s * t : ℕ) : ℝ) ≠ 0 := by exact_mod_cast hst
  rw [div_self hN]
  unfold entTerm2
  rw [if_pos one_pos, Real.logb_one]
  norm_num

theorem delentropyVal_const (m n : ℕ) (c : ℤ) (hm : 3 ≤ m) (hn : 3 ≤ n) :
    delentropyVal (constImg m n c) = 0 := by
  unfold delentropyVal
  rw [fxCrop_const, fyCrop_const]
  exact delPipeline_zero _ _ (Nat.mul_ne_zero (by omega) (by omega))

theorem delentropy2dE_const (m n : ℕ) (c : ℤ) (hm : 3 ≤ m) (hn : 3 ≤ n) :
    delentropy2dE (constImg m n c) = Except.ok 0 := by
  unfold delentropy2dE
  rw [fxCrop_const, fyCrop_const, jrng_zero]
  rw [if_neg (by norm_num), delentropyVal_const m n c hm hn]

/-- C3 counterexample: shannon1d is one of the flat-array methods of §4.4 the
claim covers, yet on the constant 2×2 image of value 5 it returns
log2 4 = 2, not 0 — it normalizes the pixel values themselves instead of a
value distribution. -/
theorem shannon1d_const_image_counterexample :
    shannon1dEntropy (constImg 2 2 5) = 2 ∧ (2 : ℝ) ≠ 0 := by
  constructor
  · rw [shannon1d_const 2 2 5 (by norm_num) (by norm_num),
      show ((2 * 2 : ℕ) : ℝ) = 4 from by norm_num]
    exact logb_two_four
  · norm_num

/-- C3 amended: on a constant image every cell of the sliding-window map
(shannon2dr) is exactly 0 and delentropy2d returns exactly 0, but shannon1d
returns log2 of the pixel count (the signal is the image divided by its sum,
not a value distribution), which is 0 only for a one-pixel image. -/
theorem constant_image_entropy_amended :
    (∀ (m n : ℕ) (c : ℤ) (k i j : ℕ), 3 ≤ k → i < m → j < n →
      shannon2drCell (constImg m n c) k i j = 0) ∧
    (∀ (m n : ℕ) (c : ℤ), 3 ≤ m → 3 ≤ n →
      delentropy2dE (constImg m n c) = Except.ok 0) ∧
    (∀ (m n : ℕ) (c : ℤ), 0 < c → 0 < m * n →
      shannon1dEntropy (constImg m n c) = Real.logb 2 ((m * n : ℕ) : ℝ)) :=
  ⟨fun m n c k i j hk hi hj => shannon2drCell_const m n c k i j hk hi hj,
   fun m n c hm hn => delentropy2dE_const m n c hm hn,
   fun m n c hc hmn => shannon1d_const m n c hc hmn⟩

/-- Witness for the amended C3 at concrete inputs: a constant 3×3 image of
value 7 (windowed and delentropy methods) and a constant 2×2 image of value 5
(shannon1d). -/
theorem constant_image_entropy_amended_witness :
    shannon2drCell (constImg 3 3 7) 3 1 1 = 0 ∧
    delentropy2dE (constImg 3 3 7) = Except.ok 0 ∧
    shannon1dEntropy (constImg 2 2 5) = Real.logb 2 ((2 * 2 : ℕ) : ℝ) :=
  ⟨constant_image_entropy_amended.1 3 3 7 3 1 1 (by norm_num) (by norm_num) (by norm_num),
   constant_image_entropy_amended.2.1 3 3 7 (by norm_num) (by norm_num),
   constant_image_entropy_amended.2.2 2 2 5 (by norm_num) (by norm_num)⟩

/-- C7 counterexample: the all-zero 2×2 image makes shannon1d's normalizing
divisor greyimg.sum() equal to 0 (a division by zero, NaN in the code), and
the all-identical 1×4 image of value 7 — a degenerate single-outcome
distribution — is assigned entropy 2 by shannon1d, not 0. -/
theorem degenerate_distribution_counterexample :
    pixelSum (constImg 2 2 0) = 0 ∧
    shannon1dEntropy (constImg 1 4 7) = 2 ∧ (2 : ℝ) ≠ 0 := by
  refine ⟨by decide, ?_, by norm_num⟩
  rw [shannon1d_const 1 4 7 (by norm_num) (by norm_num),
    show ((1 * 4 : ℕ) : ℝ) = 4 from by norm_num]
  exact logb_two_four

/-- C7 amended: the window-histogram estimator of shannon2dr does treat a
single-outcome window as probability 1 with entropy 0 and yields 0 on an
empty window; but shannon1d (and scipy1d) normalize by the raw pixel sum, so
an all-zero image gives a zero divisor (NaN in the code) and an all-identical
image is not mapped to entropy 0. -/
theorem degenerate_distribution_amended :
    (∀ (l : List ℤ) (c : ℤ), l ≠ [] → (∀ x ∈ l, x = c) →
      shannonProbs l = [1] ∧ listShEntropy l = 0) ∧
    (shannonProbs ([] : List ℤ) = [] ∧ listShEntropy ([] : List ℤ) = 0) ∧
    (∀ g : List (List ℤ), (∀ r ∈ g, ∀ x ∈ r, x = (0 : ℤ)) → pixelSum g = 0) := by
  refine ⟨?_, ⟨by simp [shannonProbs], by simp [listShEntropy, shannonProbs]⟩, ?_⟩
  · intro l c hne hall
    have hrep : l = List.replicate l.length c := List.eq_replicate_of_mem hall
    have hlen : l.length ≠ 0 := by
      intro h
      exact hne (List.eq_nil_of_length_eq_zero h)
    rw [hrep]
    exact ⟨shannonProbs_const _ c hlen, listShEntropy_const _ c hlen⟩
  · intro g hz
    unfold pixelSum
    apply List.sum_eq_zero
    intro x hx
    rcases List.mem_flatten.mp hx with ⟨r, hr, hxr⟩
    exact hz r hr x hxr

/-- Witness for the amended C7: the constant list [5, 5], the empty window and
the all-zero image [[0]]. -/
theorem degenerate_distribution_amended_witness :
    (shannonProbs [(5 : ℤ), 5] = [1] ∧ listShEntropy [(5 : ℤ), 5] = 0) ∧
    pixelSum [[(0 : ℤ)]] = 0 :=
  ⟨degenerate_distribution_amended.1 [5, 5] 5 (by decide) (by decide),
   degenerate_distribution_amended.2.2 [[0]] (by decide)⟩

/-- C8 counterexample: "1d-kapur" is one of the seven names the claim says
the CLI accepts, and it is a key of the strtofunc registry, yet main.py's
argtypemethod rejects it as a usage error. -/
theorem argtypemethod_rejects_kapur :
    argtypemethod "1d-kapur" = none ∧ "1d-kapur" ∈ strtofuncKeys := by
  constructor
  · rfl
  · decide

/-- C8 amended: main.py's --method validator accepts exactly pseudo-spatial,
2d-delentropy and 2d-gradient, with default 2d-delentropy and any other value
rejected as a usage error before any computation; the seven names of the
claim are exactly the keys of the strtofunc registry in methods.py, whose
default entry is likewise 2d-delentropy. -/
theorem cli_method_names_amended :
    (∀ s : String, argtypemethod s = some s ↔
      (s = "pseudo-spatial" ∨ s = "2d-delentropy" ∨ s = "2d-gradient")) ∧
    (∀ s : String, argtypemethod s = none ↔
      ¬(s = "pseudo-spatial" ∨ s = "2d-delentropy" ∨ s = "2d-gradient")) ∧
    mainMethodDefault = "2d-delentropy" ∧
    strtofuncKeys = ["1d-kapur", "1d-scipy", "1d-shannon", "2d-delentropy", "2d-gradient",
      "2d-regional-scikit", "2d-regional-shannon"] ∧
    methodsDefault = "2d-delentropy" := by
  refine ⟨?_, ?_, rfl, rfl, rfl⟩
  · intro s
    unfold argtypemethod
    by_cases h : s ≠ "pseudo-spatial" ∧ s ≠ "2d-delentropy" ∧ s ≠ "2d-gradient"
    · rw [if_pos h]
      constructor
      · intro hco
        cases hco
      · intro hor
        tauto
    · rw [if_neg h]
      constructor
      · intro _
        tauto
      · intro _
        rfl
  · intro s
    unfold argtypemethod
    by_cases h : s ≠ "pseudo-spatial" ∧ s ≠ "2d-delentropy" ∧ s ≠ "2d-gradient"
    · rw [if_pos h]
      constructor
      · intro _
        tauto
      · intro _
        rfl
    · rw [if_neg h]
      constructor
      · intro hco
        cases hco
      · intro hor
        tauto

/-- Witness for the amended C8 at concrete method names. -/
theorem cli_method_names_amended_witness :
    argtypemethod "2d-gradient" = some "2d-gradient" ∧ argtypemethod "1d-scipy" = none :=
  ⟨(cli_method_names_amended.1 "2d-gradient").mpr (by tauto),
   (cli_method_names_amended.2.1 "1d-scipy").mpr (by decide)⟩

theorem rect_row_len {g : List (List ℤ)} {m n : ℕ} (hg : Rect g m n) {i : ℕ}
    (hi : i < g.length) : g[i].length = n :=
  hg.2 _ (List.getElem_mem hi)

theorem length_fxCrop (g : List (List ℤ)) : (fxCrop g).length = g.length - 2 := by
  simp only [fxCrop, fxRaw, List.length_dropLast, List.length_drop, List.length_map]
  omega

theorem length_fyCrop {g : List (List ℤ)} {m n : ℕ} (hg : Rect g m n) :
    (fyCrop g).length = m - 2 := by
  simp only [fyCrop, fyRaw, List.length_map, List.length_zipWith, List.length_drop,
    List.length_take, hg.1]
  omega

theorem row_length_fxCrop {g : List (List ℤ)} {m n : ℕ} (hg : Rect g m n) :
    ∀ row ∈ fxCrop g, row.length = n - 2 := by
  intro row hrow
  have hmem2 : row ∈ fxRaw g := List.mem_of_mem_drop (List.mem_of_mem_dropLast hrow)
  rcases List.mem_map.mp hmem2 with ⟨r, hr, hrey⟩
  have hlen : r.length = n := hg.2 r hr
  rw [← hrey]
  simp only [List.length_zipWith, List.length_drop, List.length_take, hlen]
  omega

theorem row_length_fyCrop {g : List (List ℤ)} {m n : ℕ} (hg : Rect g m n) :
    ∀ row ∈ fyCrop g, row.length = n - 2 := by
  intro row hrow
  rcases List.mem_map.mp hrow with ⟨r, hr, hrey⟩
  rcases List.mem_iff_getElem.mp hr with ⟨i, hi, hieq⟩
  have hi2 : i < (g.drop 2).length := by
    simp only [fyRaw, List.length_zipWith, List.length_drop, List.length_take] at hi
    simp only [List.length_drop]
    omega
  have hit : i < (g.take (g.length - 2)).length := by
    simp only [fyRaw, List.length_zipWith, List.length_drop, List.length_take] at hi
    simp only [List.length_take]
    omega
  have hrlen : r.length = n := by
    rw [← hieq]
    unfold fyRaw
    rw [List.getElem_zipWith]
    simp only [List.length_zipWith, List.getElem_drop, List.getElem_take]
    have h1 : 2 + i < g.length := by
      simp only [List.length_drop] at hi2
      omega
    have h2 : i < g.length := by omega
    rw [rect_row_len hg h1, rect_row_len hg h2]
    omega
  rw [← hrey]
  simp only [List.length_dropLast, List.length_drop, hrlen]
  omega

theorem get2_fxCrop {g : List (List ℤ)} {m n : ℕ} (hg : Rect g m n) {i j : ℕ}
    (hi : i < m - 2) (hj : j < n - 2) :
    get2 (fxCrop g) i j = get2 g (i + 1) (j + 2) - get2 g (i + 1) j := by
  have hm : g.length = m := hg.1
  have hi' : i < (fxCrop g).length := by
    rw [length_fxCrop, hm]
    omega
  have hrowlen : ((fxCrop g)[i]).length = n - 2 :=
    row_length_fxCrop hg _ (List.getElem_mem hi')
  have h1i : i + 1 < g.length := by omega
  have hrl : (g[i + 1]).length = n := rect_row_len hg h1i
  unfold get2
  rw [List.getD_eq_getElem _ _ hi']
  rw [List.getD_eq_getElem _ _ (by rw [hrowlen]; omega)]
  rw [List.getD_eq_getElem _ _ h1i]
  rw [List.getD_eq_getElem _ _ (show j + 2 < (g[i + 1]).length by rw [hrl]; omega)]
  rw [List.getD_eq_getElem _ _ (show j < (g[i + 1]).length by rw [hrl]; omega)]
  unfold fxCrop fxRaw
  simp only [List.getElem_dropLast, List.getElem_drop, List.getElem_map, List.getElem_zipWith,
    List.getElem_take]
  simp only [Nat.add_comm 1 i, Nat.add_comm 2 j]

theorem get2_fyCrop {g : List (List ℤ)} {m n : ℕ} (hg : Rect g m n) {i j : ℕ}
    (hi : i < m - 2) (hj : j < n - 2) :
    get2 (fyCrop g) i j = get2 g (i + 2) (j + 1) - get2 g i (j + 1) := by
  have hm : g.length = m := hg.1
  have hi' : i < (fyCrop g).length := by
    rw [length_fyCrop hg]
    omega
  have hrowlen : ((fyCrop g)[i]).length = n - 2 :=
    row_length_fyCrop hg _ (List.getElem_mem hi')
  have h2i : i + 2 < g.length := by omega
  have hii : i < g.length := by omega
  have hrl2 : (g[i + 2]).length = n := rect_row_len hg h2i
  have hrli : (g[i]).length = n := rect_row_len hg hii
  unfold get2
  rw [List.getD_eq_getElem _ _ hi']
  rw [List.getD_eq_getElem _ _ (by rw [hrowlen]; omega)]
  rw [List.getD_eq_getElem _ _ h2i]
  rw [List.getD_eq_getElem _ _ (show j + 1 < (g[i + 2]).length by rw [hrl2]; omega)]
  rw [List.getD_eq_getElem _ _ hii]
  rw [List.getD_eq_getElem _ _ (show j + 1 < (g[i]).length by rw [hrli]; omega)]
  unfold fyCrop fyRaw
  simp only [List.getElem_map, List.getElem_dropLast, List.getElem_drop, List.getElem_zipWith,
    List.getElem_take]
  simp only [Nat.add_comm 2 i, Nat.add_comm 1 j]

/-- C4 counterexample: with the cropping exactly as the claim words it — drop
the first and last ROW of fy and the first and last COLUMN of fx — the two
arrays do not end up with the same shape on the 3×3 image img9 (fx would keep
3 rows, fy would lose both of its rows); the code instead crops fx[1:-1, :]
and fy[:, 1:-1], after which both are 1×1. -/
theorem delentropy_crop_wording_counterexample :
    (specFxCrop img9).length = 3 ∧ (specFyCrop img9).length = 0 ∧ (3 : ℕ) ≠ 0 ∧
    (fxCrop img9).length = 1 ∧ (fyCrop img9).length = 1 ∧
    fxCrop img9 = [[2]] ∧ fyCrop img9 = [[6]] := by
  decide

/-- C4 amended: fx and fy are the central differences f(n+1) - f(n-1) along
axis 1 and axis 0 respectively; the common interior is obtained by dropping
the first and last ROW of fx and the first and last COLUMN of fy, after which
both arrays are (m-2)×(n-2) and hold exactly the differences of the image
entries two apart. -/
theorem delentropy2d_gradient_shapes {g : List (List ℤ)} {m n : ℕ} (hg : Rect g m n) :
    (fxCrop g).length = m - 2 ∧ (∀ row ∈ fxCrop g, row.length = n - 2) ∧
    (fyCrop g).length = m - 2 ∧ (∀ row ∈ fyCrop g, row.length = n - 2) ∧
    (∀ i j : ℕ, i < m - 2 → j < n - 2 →
      get2 (fxCrop g) i j = get2 g (i + 1) (j + 2) - get2 g (i + 1) j ∧
      get2 (fyCrop g) i j = get2 g (i + 2) (j + 1) - get2 g i (j + 1)) :=
  ⟨by rw [length_fxCrop, hg.1], row_length_fxCrop hg, length_fyCrop hg,
    row_length_fyCrop hg, fun i j hi hj => ⟨get2_fxCrop hg hi hj, get2_fyCrop hg hi hj⟩⟩

/-- Witness for the amended C4 on the concrete 3×3 image img9. -/
theorem delentropy2d_gradient_shapes_witness :
    (fxCrop img9).length = 3 - 2 ∧ (∀ row ∈ fxCrop img9, row.length = 3 - 2) ∧
    (fyCrop img9).length = 3 - 2 ∧ (∀ row ∈ fyCrop img9, row.length = 3 - 2) ∧
    (∀ i j : ℕ, i < 3 - 2 → j < 3 - 2 →
      get2 (fxCrop img9) i j = get2 img9 (i + 1) (j + 2) - get2 img9 (i + 1) j ∧
      get2 (fyCrop img9) i j = get2 img9 (i + 2) (j + 1) - get2 img9 i (j + 1)) :=
  @delentropy2d_gradient_shapes img9 3 3 ⟨rfl, by decide⟩

theorem base_le_foldl_max (l : List ℕ) (a : ℕ) : a ≤ l.foldl max a := by
  induction l generalizing a with
  | nil => exact le_refl a
  | cons b t ih => exact le_trans (le_max_left a b) (ih (max a b))

theorem le_foldl_max (l : List ℕ) (a x : ℕ) (hx : x ∈ l) : x ≤ l.foldl max a := by
  induction l generalizing a with
  | nil => cases hx
  | cons b t ih =>
    rcases List.mem_cons.mp hx with rfl | hxt
    · exact le_trans (le_trans (le_max_right a x) (base_le_foldl_max t (max a x))) (le_refl _)
    · exact ih _ hxt

theorem mem_flatten_le_maxAbs {t : List (List ℤ)} {x : ℤ} (hx : x ∈ t.flatten) :
    x.natAbs ≤ maxAbs t := by
  unfold maxAbs
  exact le_foldl_max _ 0 x.natAbs (List.mem_map_of_mem Int.natAbs hx)

theorem gradPairs_bound {fx fy : List (List ℤ)} {p : ℤ × ℤ}
    (hp : p ∈ gradPairs fx fy) :
    p.1.natAbs ≤ jrngOf fx fy ∧ p.2.natAbs ≤ jrngOf fx fy := by
  obtain ⟨p1, p2⟩ := p
  unfold gradPairs at hp
  obtain ⟨h1, h2⟩ := List.of_mem_zip hp
  exact ⟨le_trans (mem_flatten_le_maxAbs h1) (le_max_left _ _),
    le_trans (mem_flatten_le_maxAbs h2) (le_max_right _ _)⟩

theorem binIdx_eq {J : ℕ} {v : ℤ} (hv : v.natAbs ≤ J) :
    binIdx J v = (v + J).toNat := by
  unfold binIdx
  by_cases hJ : J = 0
  · subst hJ
    rw [if_pos rfl]
    have hv0 : v = 0 := by omega
    subst hv0
    rfl
  · rw [if_neg hJ]
    have hu0 : (0 : ℤ) ≤ v + J := by omega
    have hu2 : v + (J : ℤ) ≤ 2 * J := by omega
    have hdiv : (v + J) * (2 * J + 1) / (2 * J : ℤ) = (v + J) + (v + J) / (2 * J) := by
      have hsplit : (v + J) * (2 * (J : ℤ) + 1) = (v + J) + (v + J) * (2 * J) := by ring
      rw [hsplit, Int.add_mul_ediv_right _ _ (by omega : (2 * (J : ℤ)) ≠ 0)]
      ring
    rw [hdiv]
    by_cases hlt : v + (J : ℤ) < 2 * J
    · rw [Int.ediv_eq_zero_of_lt hu0 hlt]
      omega
    · have heq : v + (J : ℤ) = 2 * J := by omega
      rw [heq, Int.ediv_self (by omega : (2 * (J : ℤ)) ≠ 0)]
      omega

/-- C5: delentropy2d fails with the assertion error exactly when
J = max(|fx| ∪ |fy|) (over the cropped gradients) exceeds 255; when J ≤ 255
the assertion branch is unreachable, the method returns its entropy, every
gradient pair lies in [-J, J] on both axes, and the 2D histogram built with
2J+1 bins per axis spanning [-J, J] has one bin per integer value: bin (a, b)
counts exactly the pairs equal to (a - J, b - J). -/
theorem delentropy2d_assert_iff (g : List (List ℤ)) (m n : ℕ)
    (hg : Rect g m n) (hm : 3 ≤ m) (hn : 3 ≤ n) :
    ((∃ e, delentropy2dE g = Except.error e) ↔ 255 < jrngOf (fxCrop g) (fyCrop g)) ∧
    (jrngOf (fxCrop g) (fyCrop g) ≤ 255 →
      delentropy2dE g = Except.ok (delentropyVal g) ∧
      (∀ p ∈ gradPairs (fxCrop g) (fyCrop g),
        -((jrngOf (fxCrop g) (fyCrop g) : ℤ)) ≤ p.1 ∧
          p.1 ≤ (jrngOf (fxCrop g) (fyCrop g) : ℤ) ∧
        -((jrngOf (fxCrop g) (fyCrop g) : ℤ)) ≤ p.2 ∧
          p.2 ≤ (jrngOf (fxCrop g) (fyCrop g) : ℤ)) ∧
      (∀ a b : ℕ, hist2dAt (fxCrop g) (fyCrop g) a b =
        (gradPairs (fxCrop g) (fyCrop g)).countP
          (fun p => decide (p.1 = (a : ℤ) - (jrngOf (fxCrop g) (fyCrop g) : ℤ)) &&
            decide (p.2 = (b : ℤ) - (jrngOf (fxCrop g) (fyCrop g) : ℤ))))) := by
  constructor
  · constructor
    · rintro ⟨e, he⟩
      by_contra hno
      push_neg at hno
      unfold delentropy2dE at he
      rw [if_neg (by omega)] at he
      cases he
    · intro hgt
      refine ⟨"J must be in range [-255, 255]", ?_⟩
      unfold delentropy2dE
      rw [if_pos hgt]
  · intro hle
    refine ⟨?_, ?_, ?_⟩
    · unfold delentropy2dE
      rw [if_neg (by omega)]
    · intro p hp
      have hb := gradPairs_bound hp
      omega
    · intro a b
      unfold hist2dAt
      apply List.countP_congr
      intro p hp
      have hb := gradPairs_bound hp
      simp only [Bool.and_eq_true, decide_eq_true_eq]
      rw [binIdx_eq hb.1, binIdx_eq hb.2]
      constructor
      · rintro ⟨h1, h2⟩
        constructor <;> omega
      · rintro ⟨h1, h2⟩
        constructor <;> omega

/-- Witness for C5 on the concrete 3×3 image img9 (whose J is 6). -/
theorem delentropy2d_assert_iff_witness :
    delentropy2dE img9 = Except.ok (delentropyVal img9) ∧
    hist2dAt (fxCrop img9) (fyCrop img9) 0 0 =
      (gradPairs (fxCrop img9) (fyCrop img9)).countP
        (fun p => decide (p.1 = (0 : ℤ) - (jrngOf (fxCrop img9) (fyCrop img9) : ℤ)) &&
          decide (p.2 = (0 : ℤ) - (jrngOf (fxCrop img9) (fyCrop img9) : ℤ))) := by
  have h := delentropy2d_assert_iff img9 3 3 ⟨rfl, by decide⟩ (by norm_num) (by norm_num)
  have h2 := h.2 (by decide)
  exact ⟨h2.1, h2.2.2 0 0⟩

theorem maxAbs_neg (t : List (List ℤ)) :
    maxAbs (t.map (List.map (fun x : ℤ => -x))) = maxAbs t := by
  unfold maxAbs
  rw [← List.map_flatten, List.map_map]
  congr 1
  apply List.map_congr_left
  intro x _
  simp [Int.natAbs_neg]

theorem jrng_neg (fx fy : List (List ℤ)) :
    jrngOf (fx.map (List.map (fun x : ℤ => -x))) (fy.map (List.map (fun x : ℤ => -x))) =
      jrngOf fx fy := by
  unfold jrngOf
  rw [maxAbs_neg, maxAbs_neg]

theorem gradPairs_neg (fx fy : List (List ℤ)) :
    gradPairs (fx.map (List.map (fun x : ℤ => -x))) (fy.map (List.map (fun x : ℤ => -x))) =
      (gradPairs fx fy).map (Prod.map (fun x : ℤ => -x) (fun x : ℤ => -x)) := by
  unfold gradPairs
  rw [← List.map_flatten, ← List.map_flatten, List.zip_map]

theorem hist2dAt_neg (fx fy : List (List ℤ)) (a b : ℕ)
    (ha : a ≤ 2 * jrngOf fx fy) (hb : b ≤ 2 * jrngOf fx fy) :
    hist2dAt (fx.map (List.map (fun x : ℤ => -x))) (fy.map (List.map (fun x : ℤ => -x))) a b =
      hist2dAt fx fy (2 * jrngOf fx fy - a) (2 * jrngOf fx fy - b) := by
  unfold hist2dAt
  rw [jrng_neg, gradPairs_neg, List.countP_map]
  apply List.countP_congr
  intro p hp
  obtain ⟨p1, p2⟩ := p
  have hbnd := gradPairs_bound hp
  simp only [Function.comp_apply, Prod.map_apply, Bool.and_eq_true, decide_eq_true_eq]
  rw [binIdx_eq (by rw [Int.natAbs_neg]; exact hbnd.1),
    binIdx_eq (by rw [Int.natAbs_neg]; exact hbnd.2),
    binIdx_eq hbnd.1, binIdx_eq hbnd.2]
  have hb1 := hbnd.1
  have hb2 := hbnd.2
  constructor
  · rintro ⟨h1, h2⟩
    constructor <;> omega
  · rintro ⟨h1, h2⟩
    constructor <;> omega

/-- C6: the delentropy pipeline (histogram over the gradient pairs, normalize,
masked log2, sum, halve) is invariant under global negation of the cropped
gradient field, given the J ≤ 255 precondition of the assertion. -/
theorem delentropy2d_neg_invariant (fx fy : List (List ℤ))
    (hJ : jrngOf fx fy ≤ 255) :
    delPipeline (fx.map (List.map (fun x : ℤ => -x))) (fy.map (List.map (fun x : ℤ => -x))) =
      delPipeline fx fy := by
  unfold delPipeline
  rw [jrng_neg, gradPairs_neg, List.length_map]
  congr 1
  trans (∑ a ∈ Finset.range (2 * jrngOf fx fy + 1), ∑ b ∈ Finset.range (2 * jrngOf fx fy + 1),
      entTerm2 ((hist2dAt fx fy (2 * jrngOf fx fy - a) (2 * jrngOf fx fy - b) : ℕ) /
        ((gradPairs fx fy).length : ℝ)))
  · apply Finset.sum_congr rfl
    intro a ha
    apply Finset.sum_congr rfl
    intro b hb
    have ha' : a ≤ 2 * jrngOf fx fy := by
      have := Finset.mem_range.mp ha
      omega
    have hb' : b ≤ 2 * jrngOf fx fy := by
      have := Finset.mem_range.mp hb
      omega
    rw [hist2dAt_neg fx fy a b ha' hb']
  · exact (Finset.sum_range_reflect (fun a => ∑ b ∈ Finset.range (2 * jrngOf fx fy + 1),
        entTerm2 ((hist2dAt fx fy a (2 * jrngOf fx fy - b) : ℕ) /
          ((gradPairs fx fy).length : ℝ))) (2 * jrngOf fx fy + 1)).trans
      (Finset.sum_congr rfl (fun a _ => Finset.sum_range_reflect (fun b =>
        entTerm2 ((hist2dAt fx fy a b : ℕ) / ((gradPairs fx fy).length : ℝ)))
        (2 * jrngOf fx fy + 1)))

/-- Witness for C6 on a concrete 1×2 gradient pair with J = 2 ≤ 255. -/
theorem delentropy2d_neg_invariant_witness :
    delPipeline ([[(1 : ℤ), -1]].map (List.map (fun x : ℤ => -x)))
        ([[(2 : ℤ), -2]].map (List.map (fun x : ℤ => -x))) =
      delPipeline [[(1 : ℤ), -1]] [[(2 : ℤ), -2]] :=
  delentropy2d_neg_invariant [[(1 : ℤ), -1]] [[(2 : ℤ), -2]] (by decide)

theorem sorted_le_getLastD (l : List ℕ) (hs : l.Pairwise (· ≤ ·)) (x : ℕ) (hx : x ∈ l) :
    x ≤ l.getLast?.getD 0 := by
  induction l with
  | nil => cases hx
  | cons b t ih =>
    obtain ⟨hb, hs'⟩ := List.pairwise_cons.mp hs
    cases t with
    | nil =>
      rcases List.mem_cons.mp hx with rfl | hxt
      · simp
      · cases hxt
    | cons c u =>
      rw [show (b :: c :: u).getLast? = (c :: u).getLast? from rfl]
      rcases List.mem_cons.mp hx with rfl | hxt
      · obtain ⟨y, hy⟩ : ∃ y, (c :: u).getLast? = some y := Option.isSome_iff_exists.mp rfl
        rw [hy]
        exact hb y (List.mem_of_mem_getLast? hy)
      · exact ih hs' hxt

theorem kapurNonzero_sorted (g : List (List ℤ)) : (kapurNonzero g).Pairwise (· ≤ ·) :=
  List.Pairwise.filter _ (List.pairwise_le_range 256)

theorem kapurHi_le (g : List (List ℤ)) : kapurHi g ≤ 255 := by
  unfold kapurHi
  cases h : (kapurNonzero g).getLast? with
  | none => simp
  | some y =>
    have hy : y ∈ kapurNonzero g := List.mem_of_mem_getLast? h
    unfold kapurNonzero at hy
    have hlt := List.mem_range.mp (List.mem_filter.mp hy).1
    simp only [Option.getD_some]
    omega

theorem kapurHist_gt_hi (g : List (List ℤ)) {v : ℕ} (hv : v < 256)
    (hgt : kapurHi g < v) : kapurHist g v = 0 := by
  by_contra hne
  have hmem : v ∈ kapurNonzero g := by
    unfold kapurNonzero
    rw [List.mem_filter]
    exact ⟨List.mem_range.mpr hv, by simpa using hne⟩
  have hle := sorted_le_getLastD _ (kapurNonzero_sorted g) v hmem
  unfold kapurHi at hgt
  omega

/-- C10: at the candidate i = binrng[1] (the last nonzero bin) every bin of
hist[i+1:] is zero, so the nonzero filter applied before the division leaves
an empty list and the high-partition term is the empty sum 0; the denominator
cdf[binrng[1]] - cdf[i] is indeed 0 there, but it is never applied to a
nonzero count. -/
theorem kapur1d_last_bin_empty_high (g : List (List ℤ)) (hne : kapurNonzero g ≠ []) :
    kapurHighBins g (kapurHi g) = [] ∧
    kapurHigh g (kapurHi g) = 0 ∧
    kapurCdf g (kapurHi g) = kapurCdf g 255 := by
  have hbins : kapurHighBins g (kapurHi g) = [] := by
    unfold kapurHighBins
    rw [List.filter_eq_nil_iff]
    intro v hv
    have hr := List.mem_range'_1.mp hv
    have h255 : v < 256 := by
      have := kapurHi_le g
      omega
    have hz := kapurHist_gt_hi g h255 (by omega)
    simp [hz]
  refine ⟨hbins, ?_, ?_⟩
  · unfold kapurHigh
    rw [hbins]
    simp
  · have hsplit : kapurCdf g (kapurHi g) + ∑ v ∈ Finset.Ico (kapurHi g + 1) 256, kapurHist g v
        = kapurCdf g 255 := by
      unfold kapurCdf
      rw [Finset.range_eq_Ico]
      exact Finset.sum_Ico_consecutive _ (by omega) (by have := kapurHi_le g; omega)
    have hz : ∑ v ∈ Finset.Ico (kapurHi g + 1) 256, kapurHist g v = 0 := by
      apply Finset.sum_eq_zero
      intro v hv
      have hm := Finset.mem_Ico.mp hv
      exact kapurHist_gt_hi g (by omega) (by omega)
    omega

/-- Witness for C10 on the single-pixel image [[3]]. -/
theorem kapur1d_last_bin_empty_high_witness :
    kapurHighBins [[(3 : ℤ)]] (kapurHi [[(3 : ℤ)]]) = [] ∧
    kapurHigh [[(3 : ℤ)]] (kapurHi [[(3 : ℤ)]]) = 0 ∧
    kapurCdf [[(3 : ℤ)]] (kapurHi [[(3 : ℤ)]]) = kapurCdf [[(3 : ℤ)]] 255 :=
  kapur1d_last_bin_empty_high [[(3 : ℤ)]] (by decide)

theorem kapurLow_imgK_0 : kapurLow imgK 0 = 0 := by
  unfold kapurLow
  rw [Finset.sum_range_one, show kapurHist imgK 0 = 8 from by decide,
    show kapurCdf imgK 0 = 8 from by decide]
  norm_num [entTermE]

theorem kapurHigh_imgK_0 : kapurHigh imgK 0 = -Real.log 2 := by
  unfold kapurHigh
  rw [show kapurHighBins imgK 0 = [1, 2] from by decide, show kapurHi imgK = 2 from by decide]
  simp only [List.map_cons, List.map_nil, List.sum_cons, List.sum_nil]
  rw [show kapurHist imgK 1 = 1 from by decide, show kapurHist imgK 2 = 1 from by decide,
    show kapurCdf imgK 2 = 10 from by decide, show kapurCdf imgK 0 = 8 from by decide]
  push_cast
  rw [show (10 : ℝ) - 8 = 2 from by norm_num, one_div, Real.log_inv]
  ring

theorem kapurPsi_imgK_0 : kapurPsi imgK 0 = Real.log 2 := by
  unfold kapurPsi
  rw [kapurLow_imgK_0, kapurHigh_imgK_0]
  ring

theorem kapurLow_imgK_1 : kapurLow imgK 1 = 2 * Real.log 3 - (8 / 3) * Real.log 2 := by
  unfold kapurLow
  rw [show (1 : ℕ) + 1 = 2 from rfl, Finset.sum_range_succ, Finset.sum_range_one]
  rw [show kapurHist imgK 0 = 8 from by decide, show kapurHist imgK 1 = 1 from by decide,
    show kapurCdf imgK 1 = 9 from by decide]
  unfold entTermE
  rw [if_pos (by positivity), if_pos (by positivity)]
  push_cast
  rw [Real.log_div (by norm_num) (by norm_num), Real.log_div (by norm_num) (by norm_num)]
  rw [show (8 : ℝ) = 2 ^ (3 : ℕ) from by norm_num, show (9 : ℝ) = 3 ^ (2 : ℕ) from by norm_num,
    Real.log_pow, Real.log_pow, Real.log_one]
  push_cast
  ring

theorem kapurHigh_imgK_1 : kapurHigh imgK 1 = 0 := by
  unfold kapurHigh
  rw [show kapurHighBins imgK 1 = [2] from by decide, show kapurHi imgK = 2 from by decide]
  simp only [List.map_cons, List.map_nil, List.sum_cons, List.sum_nil]
  rw [show kapurHist imgK 2 = 1 from by decide, show kapurCdf imgK 2 = 10 from by decide,
    show kapurCdf imgK 1 = 9 from by decide]
  norm_num

theorem kapurPsi_imgK_1 : kapurPsi imgK 1 = 2 * Real.log 3 - (8 / 3) * Real.log 2 := by
  unfold kapurPsi
  rw [kapurLow_imgK_1, kapurHigh_imgK_1]
  ring

theorem kapurLow_imgK_2 : kapurLow imgK 2 = Real.log 10 - (12 / 5) * Real.log 2 := by
  unfold kapurLow
  rw [show (2 : ℕ) + 1 = 3 from rfl, Finset.sum_range_succ, Finset.sum_range_succ,
    Finset.sum_range_one]
  rw [show kapurHist imgK 0 = 8 from by decide, show kapurHist imgK 1 = 1 from by decide,
    show kapurHist imgK 2 = 1 from by decide, show kapurCdf imgK 2 = 10 from by decide]
  unfold entTermE
  rw [if_pos (by positivity), if_pos (by positivity)]
  push_cast
  rw [Real.log_div (by norm_num) (by norm_num), Real.log_div (by norm_num) (by norm_num)]
  rw [show (8 : ℝ) = 2 ^ (3 : ℕ) from by norm_num, Real.log_pow, Real.log_one]
  push_cast
  ring

theorem kapurHigh_imgK_2 : kapurHigh imgK 2 = 0 := by
  unfold kapurHigh
  rw [show kapurHighBins imgK 2 = [] from by decide]
  simp

theorem kapurPsi_imgK_2 : kapurPsi imgK 2 = Real.log 10 - (12 / 5) * Real.log 2 := by
  unfold kapurPsi
  rw [kapurLow_imgK_2, kapurHigh_imgK_2]
  ring

theorem log_bound_729 : 6 * Real.log 3 < 11 * Real.log 2 := by
  have h : Real.log 729 < Real.log 2048 := Real.log_lt_log (by norm_num) (by norm_num)
  rw [show (729 : ℝ) = 3 ^ (6 : ℕ) from by norm_num,
    show (2048 : ℝ) = 2 ^ (11 : ℕ) from by norm_num, Real.log_pow, Real.log_pow] at h
  push_cast at h
  linarith

theorem log_bound_ten : 5 * Real.log 10 < 17 * Real.log 2 := by
  have h : Real.log 100000 < Real.log 131072 := Real.log_lt_log (by norm_num) (by norm_num)
  rw [show (100000 : ℝ) = 10 ^ (5 : ℕ) from by norm_num,
    show (131072 : ℝ) = 2 ^ (17 : ℕ) from by norm_num, Real.log_pow, Real.log_pow] at h
  push_cast at h
  linarith

theorem kapurLoop_imgK : kapurLoop imgK = (Real.log 2, 0) := by
  have h0 : kapurStep imgK (0, 0) 0 = (Real.log 2, 0) := by
    unfold kapurStep
    rw [kapurPsi_imgK_0]
    rw [if_pos (by simpa using Real.log_pos (by norm_num : (1 : ℝ) < 2))]
  have h1 : kapurStep imgK (Real.log 2, 0) 1 = (Real.log 2, 0) := by
    unfold kapurStep
    rw [kapurPsi_imgK_1]
    rw [if_neg (by simp only [gt_iff_lt, not_lt]; have := log_bound_729; linarith)]
  have h2 : kapurStep imgK (Real.log 2, 0) 2 = (Real.log 2, 0) := by
    unfold kapurStep
    rw [kapurPsi_imgK_2]
    rw [if_neg (by simp only [gt_iff_lt, not_lt]; have := log_bound_ten; linarith)]
  unfold kapurLoop
  rw [show kapurLo imgK = 0 from by decide, show kapurHi imgK = 2 from by decide]
  rw [show List.range' 0 (2 + 1 - 0) = [0, 1, 2] from rfl]
  simp only [List.foldl_cons, List.foldl_nil]
  rw [h0, h1, h2]

/-- C2 (code evaluation): on the 1×10 image with eight 0-pixels and one pixel
each of values 1 and 2, the loop's running maximum is log 2 (attained at the
first candidate threshold 0) and the chosen threshold is 0, yet the value the
function logs as "entropy" is the loop variable after the last iteration —
the objective of the LAST candidate, log 10 - (12/5)·log 2 ≈ 0.639 — which is
strictly below the maximum ≈ 0.693 that `entropymax` tracked and never
reported; the thresholded image is all zeros. -/
theorem kapur1d_reports_last_not_max :
    kapurReported imgK = Real.log 10 - (12 / 5) * Real.log 2 ∧
    kapurMaxEntropy imgK = Real.log 2 ∧
    kapurThreshold imgK = 0 ∧
    kapurReported imgK < kapurMaxEntropy imgK ∧
    kapurEntimg imgK = [[0, 0, 0, 0, 0, 0, 0, 0, 0, 0]] := by
  have hrep : kapurReported imgK = Real.log 10 - (12 / 5) * Real.log 2 := by
    unfold kapurReported
    rw [show kapurHi imgK = 2 from by decide, kapurPsi_imgK_2]
  have hthr : kapurThreshold imgK = 0 := by
    unfold kapurThreshold
    rw [kapurLoop_imgK]
  refine ⟨hrep, ?_, hthr, ?_, ?_⟩
  · unfold kapurMaxEntropy
    rw [kapurLoop_imgK]
  · rw [hrep]
    unfold kapurMaxEntropy
    rw [kapurLoop_imgK]
    have := log_bound_ten
    linarith
  · unfold kapurEntimg
    rw [hthr]
    decide
